import Mathlib

/-
  Verification development for the trading-platform backend's portfolio
  accounting and analytics engine (backend/app/analytics_service.py,
  backend/app/trading.py, backend/app/models.py).

  Modelling conventions:
  - prices, results, timestamps and metric values are exact rationals
    (timestamps are seconds; a calendar day is the floor of ts / 86400);
  - a numpy float expression of the form a + b * sqrt r with a, b, r
    rational is represented symbolically by the structure SqrtVal, so
    every definition stays computable (sharpe, volatility, beta, alpha
    are the only metrics whose formulas take a square root);
  - the in-place mutation "trade.result = pnl" of the just-appended sell
    trade is modelled by rebuilding the appended list element;
  - Python dicts keyed by symbol or day are modelled by insertion-ordered
    association lists, matching dict insertion-order semantics.
-/

namespace TradingBoat

/-- Trade side, from models.py TradeAction. -/
inductive TradeAction
  | buy
  | sell
deriving DecidableEq

/-- A ledger trade record, from models.py class Trade (the self-assigned
numeric id is omitted: no analytics or trading code reads it). -/
structure Trade where
  user_id : Nat
  stock : String
  action : TradeAction
  quantity : Nat
  price : Rat
  result : Option Rat
  timestamp : Rat
deriving DecidableEq

instance : Inhabited Trade := ⟨⟨0, "", TradeAction.buy, 0, 0, none, 0⟩⟩

/-- Symbolic value a + b * sqrt r (with r intended nonnegative): exact
stand-in for the float expressions of the statistics helpers. -/
structure SqrtVal where
  a : Rat
  b : Rat
  r : Rat
deriving DecidableEq

/-- The zero statistic. -/
def svZero : SqrtVal := ⟨0, 0, 0⟩

/-- Timestamp order on trades, the sort key of sorted(trades, key=timestamp). -/
def tsLE (a b : Trade) : Prop := a.timestamp ≤ b.timestamp

instance : DecidableRel tsLE := fun a b => inferInstanceAs (Decidable (a.timestamp ≤ b.timestamp))

/-- Stable ascending-timestamp sort, modelling Python's stable sorted(). -/
def sortTrades (l : List Trade) : List Trade := l.insertionSort tsLE

/-- Ascending sort of rationals, as numpy sorts before taking a percentile. -/
def sortRats (xs : List Rat) : List Rat := xs.insertionSort (· ≤ ·)

/-- numpy mean: sum divided by length. -/
def npMean (xs : List Rat) : Rat := xs.sum / (xs.length : Rat)

/-- numpy population variance (square of numpy std, which uses ddof 0). -/
def npVar (xs : List Rat) : Rat := (xs.map (fun x => (x - npMean xs) ^ 2)).sum / (xs.length : Rat)

/-- Calendar day of a timestamp in seconds. -/
def dayOf (ts : Rat) : Int := ⌊ts / 86400⌋

/-- Add v to the bucket of key k, appending a new bucket at the end when the
key is absent, exactly like insertion into a Python dict. -/
def addToBucket : List (Int × Rat) → Int → Rat → List (Int × Rat)
  | [], k, v => [(k, v)]
  | (k', v') :: rest, k, v =>
      if k' = k then (k, v' + v) :: rest else (k', v') :: addToBucket rest k v

/-- analytics_service.py lines 103 to 117: bucket results (missing counted 0)
by calendar day in first-seen order; empty input collapses to a single 0. -/
def _calculate_daily_returns (trades : List Trade) : List Rat :=
  let daily := trades.foldl (fun m t => addToBucket m (dayOf t.timestamp) (t.result.getD 0)) []
  let returns := daily.map Prod.snd
  if returns.isEmpty then [0] else returns

/-- The values appended after the seed: each step adds the trade's result
(missing counted 0) to the running value and floors at zero. -/
def progressionFrom (v : Rat) : List Trade → List Rat
  | [] => []
  | t :: ts =>
      let v2 := max 0 (v + t.result.getD 0)
      v2 :: progressionFrom v2 ts

/-- analytics_service.py lines 119 to 131: value series seeded at 10000 over
the trades in ascending timestamp order. -/
def _calculate_portfolio_progression (trades : List Trade) : List Rat :=
  10000 :: progressionFrom 10000 (sortTrades trades)

/-- analytics_service.py lines 133 to 148: mean excess over std excess times
sqrt 252, i.e. mean(excess) * sqrt (252 / var excess); 0 when fewer than 2
returns or the variance is 0. The source's default risk-free rate is 5 percent
a year, 0.05 / 252 a day. -/
def _calculate_sharpe (returns : List Rat) : SqrtVal :=
  if returns.length < 2 then svZero
  else
    let excess := returns.map (fun x => x - (5 / 100 : Rat) / 252)
    if npVar excess = 0 then svZero
    else ⟨0, npMean excess, 252 / npVar excess⟩

/-- The drawdown loop of lines 156 to 164: raise the peak on a new high, else
record the percentage decline below the peak. -/
def ddLoop : Rat → Rat → List Rat → Rat
  | _, maxdd, [] => maxdd
  | peak, maxdd, v :: vs =>
      if v > peak then ddLoop v maxdd vs
      else ddLoop peak (max maxdd ((peak - v) / peak * 100)) vs

/-- analytics_service.py lines 150 to 169: maximum percentage drawdown of the
value series; 0 when fewer than 2 values. -/
def _calculate_max_drawdown (portfolio_values : List Rat) : Rat :=
  if portfolio_values.length < 2 then 0
  else ddLoop (portfolio_values.headD 0) 0 portfolio_values.tail

/-- analytics_service.py lines 171 to 180: std times sqrt 252 times 100,
i.e. 100 * sqrt (252 * var); 0 when fewer than 2 values. -/
def _calculate_volatility (returns : List Rat) : SqrtVal :=
  if returns.length < 2 then svZero
  else ⟨0, 100, 252 * npVar returns⟩

/-- Dict write positions[k] = v: overwrite in place, else append. -/
def dictSet : List (String × Rat) → String → Rat → List (String × Rat)
  | [], k, v => [(k, v)]
  | (k', v') :: rest, k, v =>
      if k' = k then (k, v) :: rest else (k', v') :: dictSet rest k v

/-- Dict lookup positions.get(k). -/
def dictGet : List (String × Rat) → String → Option Rat
  | [], _ => none
  | (k', v') :: rest, k => if k' = k then some v' else dictGet rest k

/-- Dict deletion del positions[k]. -/
def dictDel : List (String × Rat) → String → List (String × Rat)
  | [], _ => []
  | (k', v') :: rest, k => if k' = k then rest else (k', v') :: dictDel rest k

/-- The matching loop of lines 191 to 197: a buy records (overwriting) the open
timestamp of its symbol; a sell with an open symbol emits the elapsed hours and
clears the record. -/
def durationScan : List (String × Rat) → List Trade → List Rat
  | _, [] => []
  | pos, t :: ts =>
      match t.action with
      | TradeAction.buy => durationScan (dictSet pos t.stock t.timestamp) ts
      | TradeAction.sell =>
          match dictGet pos t.stock with
          | some t0 => ((t.timestamp - t0) / 3600) :: durationScan (dictDel pos t.stock) ts
          | none => durationScan pos ts

/-- analytics_service.py lines 182 to 202: mean of the emitted durations; 0
when fewer than 2 trades or no closed round-trip. -/
def _calculate_avg_trade_duration (trades : List Trade) : Rat :=
  if trades.length < 2 then 0
  else
    let durations := durationScan [] (sortTrades trades)
    if durations.isEmpty then 0 else npMean durations

/-- numpy percentile with the default linear interpolation: on the ascending
sort s of length n, with h = pct / 100 * (n - 1) and i its floor, return
s[i] + (h - i) * (s[i+1] - s[i]), the upper index falling back to the lower
value when it is out of range. -/
def np_percentile (xs : List Rat) (pct : Rat) : Rat :=
  let s := sortRats xs
  let h := pct / 100 * ((s.length : Rat) - 1)
  let i := ⌊h⌋.toNat
  let lo := s.getD i 0
  let hi := s.getD (i + 1) lo
  lo + (h - (i : Rat)) * (hi - lo)

/-- analytics_service.py lines 204 to 213: 5th percentile of the returns, 0
when fewer than 10 observations (source default confidence 0.05, passed to
numpy as 0.05 * 100 = 5). -/
def _calculate_var (returns : List Rat) : Rat :=
  if returns.length < 10 then 0
  else np_percentile returns 5

/-- analytics_service.py lines 215 to 228: assumed correlation 0.7 times
std / assumed market volatility 0.15, i.e. (0.7 / 0.15) * sqrt var; the
neutral 1.0 when fewer than 10 observations. -/
def _calculate_beta (returns : List Rat) : SqrtVal :=
  if returns.length < 10 then ⟨1, 0, 0⟩
  else ⟨0, (7 / 10 : Rat) / (15 / 100), npVar returns⟩

/-- analytics_service.py lines 230 to 245: annualized excess of the portfolio
daily return over the CAPM expectation with the beta above; 0 on empty
returns. -/
def _calculate_alpha (returns : List Rat) (total_return : Rat) : SqrtVal :=
  if returns.isEmpty then svZero
  else
    let portfolio_return := total_return / (returns.length : Rat)
    let market_return : Rat := (12 / 100) / 252
    let risk_free_rate : Rat := (5 / 100) / 252
    let beta := _calculate_beta returns
    ⟨(portfolio_return - (risk_free_rate + beta.a * (market_return - risk_free_rate))) * 252 * 100,
     (0 - beta.b * (market_return - risk_free_rate)) * 252 * 100,
     beta.r⟩

/-- One element of performance chart data: the date is the calendar day of
now minus (length - index) days. -/
structure ChartPoint where
  date : Int
  portfolio_value : Rat
  cumulative_return : Rat
deriving DecidableEq

/-- analytics_service.py lines 247 to 262: project the value series onto
dated cumulative-return points. -/
def _prepare_chart_data (now : Rat) (_trades : List Trade) (portfolio_values : List Rat) : List ChartPoint :=
  let L := portfolio_values.length
  (List.range L).map (fun i =>
    { date := dayOf (now - ((L - i : Nat) : Rat) * 86400)
      portfolio_value := portfolio_values.getD i 0
      cumulative_return :=
        if portfolio_values.getD 0 0 > 0 then
          (portfolio_values.getD i 0 - portfolio_values.getD 0 0) / portfolio_values.getD 0 0 * 100
        else 0 })

/-- Profit factor, either a finite rational or the float inf produced by the
source when the loss denominator is not positive. -/
inductive ProfitFactor
  | fin (q : Rat)
  | inf
deriving DecidableEq

/-- The nested risk metrics group. -/
structure RiskMetrics where
  value_at_risk : Rat
  beta : SqrtVal
  alpha : SqrtVal
deriving DecidableEq

/-- The metrics object assembled at lines 55 to 76 (field sharpe stands for
the source's sharpe ratio field, spelled without the second word). -/
structure Metrics where
  portfolio_value : Rat
  total_return : Rat
  return_percentage : Rat
  sharpe : SqrtVal
  max_drawdown : Rat
  volatility : SqrtVal
  win_rate : Rat
  avg_trade_duration : Rat
  total_trades : Nat
  winning_trades : Nat
  losing_trades : Nat
  avg_win : Rat
  avg_loss : Rat
  profit_factor : ProfitFactor
  risk_metrics : RiskMetrics
  performance_chart_data : List ChartPoint
deriving DecidableEq

/-- analytics_service.py lines 82 to 101: the neutral zero-filled object. -/
def _empty_metrics : Metrics :=
  { portfolio_value := 0
    total_return := 0
    return_percentage := 0
    sharpe := svZero
    max_drawdown := 0
    volatility := svZero
    win_rate := 0
    avg_trade_duration := 0
    total_trades := 0
    winning_trades := 0
    losing_trades := 0
    avg_win := 0
    avg_loss := 0
    profit_factor := ProfitFactor.fin 0
    risk_metrics := { value_at_risk := 0, beta := svZero, alpha := svZero }
    performance_chart_data := [] }

/-- The window filter of lines 16 to 23: the user's trades with timestamp
between now minus the given number of days and now. -/
def userTradesInWindow (db : List Trade) (user_id : Nat) (days : Nat) (now : Rat) : List Trade :=
  db.filter (fun t =>
    decide (t.user_id = user_id ∧ now - (days : Rat) * 86400 ≤ t.timestamp ∧ t.timestamp ≤ now))

/-- Line 44: trades whose result (missing counted 0) is positive. -/
def winningTrades (trades : List Trade) : List Trade :=
  trades.filter (fun t => decide (t.result.getD 0 > 0))

/-- Line 45: trades whose result (missing counted 0) is negative. -/
def losingTrades (trades : List Trade) : List Trade :=
  trades.filter (fun t => decide (t.result.getD 0 < 0))

/-- Line 51: sum of the results of the winning trades. -/
def totalWinSum (trades : List Trade) : Rat :=
  ((winningTrades trades).map (fun t => t.result.getD 0)).sum

/-- Line 52: absolute value of the sum of the results of the losing trades. -/
def totalLossAbs (trades : List Trade) : Rat :=
  |((losingTrades trades).map (fun t => t.result.getD 0)).sum|

/-- analytics_service.py lines 13 to 80: the orchestrator. The source reads
the global ledger and the wall clock; these enter here as the arguments db
and now. The try and except wrapper around the body is modelled by the
function being total. -/
def calculate_portfolio_metrics (db : List Trade) (user_id : Nat) (days : Nat) (now : Rat) : Metrics :=
  let user_trades := userTradesInWindow db user_id days now
  if user_trades.isEmpty then _empty_metrics
  else
    let daily_returns := _calculate_daily_returns user_trades
    let portfolio_values := _calculate_portfolio_progression user_trades
    let total_return := (user_trades.map (fun t => t.result.getD 0)).sum
    let total_invested :=
      ((user_trades.filter (fun t => decide (t.action = TradeAction.buy))).map
        (fun t => t.price * (t.quantity : Rat))).sum
    let return_percentage := if total_invested > 0 then total_return / total_invested * 100 else 0
    let winning := winningTrades user_trades
    let losing := losingTrades user_trades
    let win_rate :=
      if user_trades.isEmpty then 0
      else (winning.length : Rat) / (user_trades.length : Rat) * 100
    let avg_win := if winning.isEmpty then 0 else npMean (winning.map (fun t => t.result.getD 0))
    let avg_loss := if losing.isEmpty then 0 else npMean (losing.map (fun t => t.result.getD 0))
    let total_wins := (winning.map (fun t => t.result.getD 0)).sum
    let total_losses := |(losing.map (fun t => t.result.getD 0)).sum|
    let profit_factor :=
      if total_losses > 0 then ProfitFactor.fin (total_wins / total_losses) else ProfitFactor.inf
    { portfolio_value := portfolio_values.getLastD 0
      total_return := total_return
      return_percentage := return_percentage
      sharpe := _calculate_sharpe daily_returns
      max_drawdown := _calculate_max_drawdown portfolio_values
      volatility := _calculate_volatility daily_returns
      win_rate := win_rate
      avg_trade_duration := _calculate_avg_trade_duration user_trades
      total_trades := user_trades.length
      winning_trades := winning.length
      losing_trades := losing.length
      avg_win := avg_win
      avg_loss := avg_loss
      profit_factor := profit_factor
      risk_metrics :=
        { value_at_risk := _calculate_var daily_returns
          beta := _calculate_beta daily_returns
          alpha := _calculate_alpha daily_returns total_return }
      performance_chart_data := _prepare_chart_data now user_trades portfolio_values }

/-- models.py Trade constructor: result defaults to none, timestamp is the
construction instant. -/
def mkTrade (user_id : Nat) (stock : String) (action : TradeAction) (quantity : Nat)
    (price : Rat) (now : Rat) : Trade :=
  { user_id := user_id, stock := stock, action := action, quantity := quantity,
    price := price, result := none, timestamp := now }

/-- trading.py lines 35 to 48: append a buy trade to the ledger. -/
def execute_buy_order (db : List Trade) (user_id : Nat) (stock : String)
    (price : Rat) (quantity : Nat) (now : Rat) : List Trade :=
  db ++ [mkTrade user_id stock TradeAction.buy quantity price now]

/-- The buy-trade filter of trading.py line 56. -/
def isUserBuy (user_id : Nat) (stock : String) (t : Trade) : Bool :=
  decide (t.user_id = user_id ∧ t.stock = stock ∧ t.action = TradeAction.buy)

/-- trading.py lines 50 to 75: append a sell trade; when the ledger (with the
sell already appended) holds a buy of the user and symbol, set the sell's
result to (sell price minus the last such buy's price) times quantity. The
in-place result assignment is modelled by rebuilding the appended element. -/
def execute_sell_order (db : List Trade) (user_id : Nat) (stock : String)
    (price : Rat) (quantity : Nat) (now : Rat) : List Trade :=
  let trade := mkTrade user_id stock TradeAction.sell quantity price now
  let db2 := db ++ [trade]
  let buy_trades := db2.filter (isUserBuy user_id stock)
  match buy_trades.getLast? with
  | some b => db ++ [{ trade with result := some ((price - b.price) * (quantity : Rat)) }]
  | none => db2

/-- Ledger invariant: no buy trade carries a realized result. -/
def BuyNoResult (db : List Trade) : Prop :=
  ∀ t ∈ db, t.action = TradeAction.buy → t.result = none

/-- The ascending-timestamp sort keeps the number of trades. -/
theorem sortTrades_length (l : List Trade) : (sortTrades l).length = l.length :=
  List.length_insertionSort tsLE l

/-- The tail of the value series has one entry per sorted trade. -/
theorem progressionFrom_length (l : List Trade) :
    ∀ v : Rat, (progressionFrom v l).length = l.length := by
  induction l with
  | nil => intro v; rfl
  | cons t ts ih => intro v; simp [progressionFrom, ih]

/-- Every entry of the tail of the value series is nonnegative. -/
theorem progressionFrom_nonneg (l : List Trade) :
    ∀ v : Rat, ∀ x ∈ progressionFrom v l, 0 ≤ x := by
  induction l with
  | nil => intro v x hx; simp [progressionFrom] at hx
  | cons t ts ih =>
    intro v x hx
    simp only [progressionFrom, List.mem_cons] at hx
    rcases hx with h | h
    · rw [h]; exact le_max_left 0 _
    · exact ih _ x h

/-- The step recurrence of the value series: each entry after the seed is the
previous entry plus the matching trade's result, floored at zero. -/
theorem progressionFrom_getD (l : List Trade) :
    ∀ (v : Rat) (i : Nat), i < l.length →
      (v :: progressionFrom v l).getD (i + 1) 0 =
        max 0 ((v :: progressionFrom v l).getD i 0 + (l.getD i default).result.getD 0) := by
  induction l with
  | nil => intro v i h; simp at h
  | cons t ts ih =>
    intro v i h
    cases i with
    | zero => simp [progressionFrom]
    | succ j =>
      have hj : j < ts.length := Nat.lt_of_succ_lt_succ (by simpa using h)
      have := ih (max 0 (v + t.result.getD 0)) j hj
      simpa [progressionFrom, List.getD_cons_succ] using this

/-- C2: the value series starts at 10000, has one entry per trade plus the
seed, follows the floored accumulation recurrence over the trades in ascending
timestamp order, and is exactly the one-element series 10000 on no trades. -/
theorem value_series_spec (trades : List Trade) :
    (_calculate_portfolio_progression trades).length = trades.length + 1 ∧
    (_calculate_portfolio_progression trades).getD 0 0 = 10000 ∧
    _calculate_portfolio_progression [] = [10000] ∧
    ∀ i, i < trades.length →
      (_calculate_portfolio_progression trades).getD (i + 1) 0 =
        max 0 ((_calculate_portfolio_progression trades).getD i 0 +
          ((sortTrades trades).getD i default).result.getD 0) := by
  refine ⟨?_, rfl, rfl, ?_⟩
  · simp [_calculate_portfolio_progression, progressionFrom_length, sortTrades_length]
  · intro i hi
    have hi' : i < (sortTrades trades).length := by rw [sortTrades_length]; exact hi
    exact progressionFrom_getD (sortTrades trades) 10000 i hi'

/-- Witness for C2: one trade losing 20000 floors the series at 0. -/
theorem value_series_spec_witness :
    0 < ([⟨1, "A", TradeAction.sell, 1, 1, some (-20000), 0⟩] : List Trade).length ∧
    (_calculate_portfolio_progression [⟨1, "A", TradeAction.sell, 1, 1, some (-20000), 0⟩]).getD 1 0 =
      max 0 ((_calculate_portfolio_progression
          [⟨1, "A", TradeAction.sell, 1, 1, some (-20000), 0⟩]).getD 0 0 +
        ((sortTrades [⟨1, "A", TradeAction.sell, 1, 1, some (-20000), 0⟩]).getD 0
            default).result.getD 0) :=
  ⟨by decide,
   (value_series_spec [⟨1, "A", TradeAction.sell, 1, 1, some (-20000), 0⟩]).2.2.2 0 (by decide)⟩

/-- C10: a zero value in the series is not absorbing: a following trade with
positive result r lifts the next entry to exactly r. -/
theorem zero_floor_not_absorbing (trades : List Trade) (i : Nat) (r : Rat)
    (hi : i < trades.length)
    (h0 : (_calculate_portfolio_progression trades).getD i 0 = 0)
    (hr : ((sortTrades trades).getD i default).result = some r)
    (hpos : 0 < r) :
    (_calculate_portfolio_progression trades).getD (i + 1) 0 = r ∧
      0 < (_calculate_portfolio_progression trades).getD (i + 1) 0 := by
  have key : (_calculate_portfolio_progression trades).getD (i + 1) 0 = r := by
    have hrec := progressionFrom_getD (sortTrades trades) 10000 i
      (by rw [sortTrades_length]; exact hi)
    simp only [_calculate_portfolio_progression] at h0 ⊢
    rw [hrec, h0, hr]
    simp [max_eq_right hpos.le]
  exact ⟨key, key ▸ hpos⟩

/-- Witness for C10: after a ruinous loss pins the series at 0, a gain of 5
lifts it back to 5. -/
theorem zero_floor_not_absorbing_witness :
    (_calculate_portfolio_progression
        [⟨1, "A", TradeAction.sell, 1, 1, some (-20000), 0⟩,
         ⟨1, "A", TradeAction.sell, 1, 1, some 5, 100⟩]).getD 2 0 = 5 ∧
    0 < (_calculate_portfolio_progression
        [⟨1, "A", TradeAction.sell, 1, 1, some (-20000), 0⟩,
         ⟨1, "A", TradeAction.sell, 1, 1, some 5, 100⟩]).getD 2 0 :=
  zero_floor_not_absorbing
    [⟨1, "A", TradeAction.sell, 1, 1, some (-20000), 0⟩,
     ⟨1, "A", TradeAction.sell, 1, 1, some 5, 100⟩]
    1 5 (by decide)
    (by norm_num [_calculate_portfolio_progression, sortTrades, tsLE, progressionFrom, max_def])
    (by norm_num [sortTrades, tsLE])
    (by norm_num)

/-- The drawdown loop stays within 0 and 100 over nonnegative values once the
peak is positive. -/
theorem ddLoop_bounds (vs : List Rat) :
    ∀ peak maxdd : Rat, 0 < peak → 0 ≤ maxdd → maxdd ≤ 100 → (∀ v ∈ vs, 0 ≤ v) →
      0 ≤ ddLoop peak maxdd vs ∧ ddLoop peak maxdd vs ≤ 100 := by
  induction vs with
  | nil => intro peak maxdd _ h2 h3 _; exact ⟨h2, h3⟩
  | cons v vs ih =>
    intro peak maxdd hpeak h0 h100 hall
    have hv0 : 0 ≤ v := hall v (List.mem_cons_self v vs)
    have hrest : ∀ x ∈ vs, 0 ≤ x := fun x hx => hall x (List.mem_cons_of_mem v hx)
    simp only [ddLoop]
    by_cases hv : v > peak
    · rw [if_pos hv]
      exact ih v maxdd (lt_trans hpeak hv) h0 h100 hrest
    · rw [if_neg hv]
      have hle : v ≤ peak := not_lt.mp hv
      have hfrac : (peak - v) / peak ≤ 1 := by
        rw [div_le_one hpeak]; linarith
      have hdd : (peak - v) / peak * 100 ≤ 100 := by
        have := mul_le_mul_of_nonneg_right hfrac (by norm_num : (0 : Rat) ≤ 100)
        linarith
      exact ih peak (max maxdd ((peak - v) / peak * 100)) hpeak
        (le_trans h0 (le_max_left _ _)) (max_le h100 hdd) hrest

/-- C9: on every value series the engine's builder can produce (seed 10000 and
nonnegative entries), the maximum drawdown is between 0 and 100 percent. -/
theorem max_drawdown_bounds (trades : List Trade) :
    0 ≤ _calculate_max_drawdown (_calculate_portfolio_progression trades) ∧
    _calculate_max_drawdown (_calculate_portfolio_progression trades) ≤ 100 := by
  unfold _calculate_max_drawdown
  by_cases h : (_calculate_portfolio_progression trades).length < 2
  · rw [if_pos h]; norm_num
  · rw [if_neg h]
    have hdd := ddLoop_bounds (progressionFrom 10000 (sortTrades trades)) 10000 0
      (by norm_num) le_rfl (by norm_num)
      (progressionFrom_nonneg (sortTrades trades) 10000)
    exact hdd

/-- Appending a sell trade never enlarges the buy-trade filter of the ledger. -/
theorem filter_isUserBuy_append_sell (db : List Trade) (uid : Nat) (stock : String) (t : Trade)
    (ht : t.action = TradeAction.sell) :
    (db ++ [t]).filter (isUserBuy uid stock) = db.filter (isUserBuy uid stock) := by
  have hfalse : isUserBuy uid stock t = false := by
    simp [isUserBuy, ht]
  simp [List.filter_append, hfalse]

/-- C1: for every ledger, user, window length and clock instant, the metrics
computation is a total function into the metrics object type, and whenever no
trade of the user falls inside the trailing window it returns the neutral
object: every numeric field 0, profit factor 0, the risk metrics group all 0,
and empty chart data. -/
theorem calculate_portfolio_metrics_empty_window
    (db : List Trade) (user_id days : Nat) (now : Rat)
    (h : userTradesInWindow db user_id days now = []) :
    calculate_portfolio_metrics db user_id days now =
      { portfolio_value := 0
        total_return := 0
        return_percentage := 0
        sharpe := ⟨0, 0, 0⟩
        max_drawdown := 0
        volatility := ⟨0, 0, 0⟩
        win_rate := 0
        avg_trade_duration := 0
        total_trades := 0
        winning_trades := 0
        losing_trades := 0
        avg_win := 0
        avg_loss := 0
        profit_factor := ProfitFactor.fin 0
        risk_metrics := { value_at_risk := 0, beta := ⟨0, 0, 0⟩, alpha := ⟨0, 0, 0⟩ }
        performance_chart_data := [] } := by
  simp [calculate_portfolio_metrics, h, _empty_metrics, svZero]

/-- Witness for C1 at a concrete empty ledger. -/
theorem calculate_portfolio_metrics_empty_window_witness :
    userTradesInWindow [] 1 30 0 = [] ∧
      calculate_portfolio_metrics [] 1 30 0 =
        { portfolio_value := 0
          total_return := 0
          return_percentage := 0
          sharpe := ⟨0, 0, 0⟩
          max_drawdown := 0
          volatility := ⟨0, 0, 0⟩
          win_rate := 0
          avg_trade_duration := 0
          total_trades := 0
          winning_trades := 0
          losing_trades := 0
          avg_win := 0
          avg_loss := 0
          profit_factor := ProfitFactor.fin 0
          risk_metrics := { value_at_risk := 0, beta := ⟨0, 0, 0⟩, alpha := ⟨0, 0, 0⟩ }
          performance_chart_data := [] } :=
  ⟨rfl, calculate_portfolio_metrics_empty_window [] 1 30 0 rfl⟩

/-- C3: recording a sell appends exactly one trade; when the ledger holds a
prior buy of the same user and symbol, the appended sell carries the result
(sell price minus the price of the most recently recorded such buy) times the
sell quantity, with no regard to how much of that buy was already consumed;
with no prior buy the sell carries no result. -/
theorem execute_sell_order_matching (db : List Trade) (uid : Nat) (stock : String)
    (price : Rat) (qty : Nat) (now : Rat) :
    (∀ b, (db.filter (isUserBuy uid stock)).getLast? = some b →
      execute_sell_order db uid stock price qty now =
        db ++ [{ mkTrade uid stock TradeAction.sell qty price now with
                 result := some ((price - b.price) * (qty : Rat)) }]) ∧
    ((db.filter (isUserBuy uid stock)).getLast? = none →
      execute_sell_order db uid stock price qty now =
        db ++ [mkTrade uid stock TradeAction.sell qty price now]) := by
  have hf : (db ++ [mkTrade uid stock TradeAction.sell qty price now]).filter
      (isUserBuy uid stock) = db.filter (isUserBuy uid stock) :=
    filter_isUserBuy_append_sell db uid stock _ rfl
  constructor
  · intro b hb
    simp only [execute_sell_order, hf, hb]
  · intro hn
    simp only [execute_sell_order, hf, hn]

/-- Witness for C3: sell 5 at 120 after a single buy at 100 realizes 100. -/
theorem execute_sell_order_matching_witness :
    (([⟨1, "A", TradeAction.buy, 10, 100, none, 0⟩] :
        List Trade).filter (isUserBuy 1 "A")).getLast? =
      some ⟨1, "A", TradeAction.buy, 10, 100, none, 0⟩ ∧
    execute_sell_order [⟨1, "A", TradeAction.buy, 10, 100, none, 0⟩] 1 "A" 120 5 7 =
      [⟨1, "A", TradeAction.buy, 10, 100, none, 0⟩,
       { mkTrade 1 "A" TradeAction.sell 5 120 7 with
         result := some ((120 - (100 : Rat)) * (5 : Nat)) }] :=
  ⟨by decide,
   (execute_sell_order_matching [⟨1, "A", TradeAction.buy, 10, 100, none, 0⟩] 1 "A" 120 5 7).1
     ⟨1, "A", TradeAction.buy, 10, 100, none, 0⟩ (by decide)⟩

/-- C8: every buy appended by the buy operation carries no result, and the
no-result-on-buys ledger invariant is preserved by both the buy-recording and
the sell-recording operations. -/
theorem buy_trades_never_carry_result (db : List Trade) (uid : Nat) (stock : String)
    (price : Rat) (qty : Nat) (now : Rat) :
    (BuyNoResult db → BuyNoResult (execute_buy_order db uid stock price qty now)) ∧
    (BuyNoResult db → BuyNoResult (execute_sell_order db uid stock price qty now)) ∧
    (execute_buy_order db uid stock price qty now).getLast? =
      some (mkTrade uid stock TradeAction.buy qty price now) ∧
    (mkTrade uid stock TradeAction.buy qty price now).result = none := by
  refine ⟨?_, ?_, ?_, rfl⟩
  · intro h t ht hbuy
    rcases List.mem_append.mp ht with hin | hnew
    · exact h t hin hbuy
    · simp only [List.mem_singleton] at hnew
      subst hnew
      rfl
  · intro h t ht
    rcases hcase : ((db ++ [mkTrade uid stock TradeAction.sell qty price now]).filter
        (isUserBuy uid stock)).getLast? with _ | b
    all_goals simp only [execute_sell_order, hcase] at ht
    all_goals rcases List.mem_append.mp ht with hin | hnew
    · exact h t hin
    · simp only [List.mem_singleton] at hnew
      subst hnew
      intro hbuy
      exact absurd hbuy (by simp [mkTrade])
    · exact h t hin
    · simp only [List.mem_singleton] at hnew
      subst hnew
      intro hbuy
      exact absurd hbuy (by simp [mkTrade])
  · exact List.getLast?_concat db

/-- Witness for C8 on a concrete empty ledger. -/
theorem buy_trades_never_carry_result_witness :
    BuyNoResult ([] : List Trade) ∧
    BuyNoResult (execute_buy_order [] 1 "A" 10 5 0) ∧
    BuyNoResult (execute_sell_order [] 1 "A" 10 5 0) :=
  ⟨by simp [BuyNoResult],
   (buy_trades_never_carry_result [] 1 "A" 10 5 0).1 (by simp [BuyNoResult]),
   (buy_trades_never_carry_result [] 1 "A" 10 5 0).2.1 (by simp [BuyNoResult])⟩

/-- Counterexample to C5 as stated: a single in-window buy with no realized
result has no losing and no winning trades, yet the source computes profit
factor infinity, so infinity does not occur exactly when winning trades
exist. -/
theorem profit_factor_inf_without_wins_cex :
    (calculate_portfolio_metrics [⟨1, "A", TradeAction.buy, 10, 100, none, 0⟩]
        1 30 0).profit_factor = ProfitFactor.inf ∧
    (calculate_portfolio_metrics [⟨1, "A", TradeAction.buy, 10, 100, none, 0⟩]
        1 30 0).winning_trades = 0 ∧
    (calculate_portfolio_metrics [⟨1, "A", TradeAction.buy, 10, 100, none, 0⟩]
        1 30 0).losing_trades = 0 ∧
    (calculate_portfolio_metrics [⟨1, "A", TradeAction.buy, 10, 100, none, 0⟩]
        1 30 0).total_trades = 1 := by
  norm_num [calculate_portfolio_metrics, userTradesInWindow, winningTrades, losingTrades]

/-- C5 amended: on a non-empty in-window trade list the profit factor is the
win sum over the absolute loss sum when the loss sum is nonzero, and infinity
whenever the loss sum is zero, whether or not winning trades exist; with no
in-window trades it is 0. -/
theorem profit_factor_spec (db : List Trade) (user_id days : Nat) (now : Rat) :
    (userTradesInWindow db user_id days now ≠ [] →
      0 < totalLossAbs (userTradesInWindow db user_id days now) →
      (calculate_portfolio_metrics db user_id days now).profit_factor =
        ProfitFactor.fin (totalWinSum (userTradesInWindow db user_id days now) /
          totalLossAbs (userTradesInWindow db user_id days now))) ∧
    (userTradesInWindow db user_id days now ≠ [] →
      totalLossAbs (userTradesInWindow db user_id days now) = 0 →
      (calculate_portfolio_metrics db user_id days now).profit_factor = ProfitFactor.inf) ∧
    (userTradesInWindow db user_id days now = [] →
      (calculate_portfolio_metrics db user_id days now).profit_factor = ProfitFactor.fin 0) := by
  refine ⟨?_, ?_, ?_⟩
  · intro h1 h2
    have hne : (userTradesInWindow db user_id days now).isEmpty = false := by
      simpa [List.isEmpty_iff] using h1
    simp only [calculate_portfolio_metrics, hne, Bool.false_eq_true, if_false,
      totalWinSum, totalLossAbs] at h2 ⊢
    rw [if_pos h2]
  · intro h1 h2
    have hne : (userTradesInWindow db user_id days now).isEmpty = false := by
      simpa [List.isEmpty_iff] using h1
    simp only [calculate_portfolio_metrics, hne, Bool.false_eq_true, if_false,
      totalWinSum, totalLossAbs] at h2 ⊢
    rw [if_neg (by rw [h2]; exact lt_irrefl 0)]
  · intro h
    simp [calculate_portfolio_metrics, h, _empty_metrics]

/-- Witness for C5 amended: wins 80 against losses 30 give the finite ratio,
and the all-zero-result case gives infinity. -/
theorem profit_factor_spec_witness :
    userTradesInWindow [⟨1, "A", TradeAction.sell, 1, 1, some 80, 0⟩,
        ⟨1, "A", TradeAction.sell, 1, 1, some (-30), 10⟩] 1 30 100 ≠ [] ∧
    0 < totalLossAbs (userTradesInWindow [⟨1, "A", TradeAction.sell, 1, 1, some 80, 0⟩,
        ⟨1, "A", TradeAction.sell, 1, 1, some (-30), 10⟩] 1 30 100) ∧
    (calculate_portfolio_metrics [⟨1, "A", TradeAction.sell, 1, 1, some 80, 0⟩,
        ⟨1, "A", TradeAction.sell, 1, 1, some (-30), 10⟩] 1 30 100).profit_factor =
      ProfitFactor.fin (totalWinSum (userTradesInWindow
          [⟨1, "A", TradeAction.sell, 1, 1, some 80, 0⟩,
           ⟨1, "A", TradeAction.sell, 1, 1, some (-30), 10⟩] 1 30 100) /
        totalLossAbs (userTradesInWindow
          [⟨1, "A", TradeAction.sell, 1, 1, some 80, 0⟩,
           ⟨1, "A", TradeAction.sell, 1, 1, some (-30), 10⟩] 1 30 100)) :=
  ⟨by norm_num [userTradesInWindow]; exact List.cons_ne_nil _ _,
   by norm_num [userTradesInWindow, totalLossAbs, losingTrades],
   (profit_factor_spec [⟨1, "A", TradeAction.sell, 1, 1, some 80, 0⟩,
       ⟨1, "A", TradeAction.sell, 1, 1, some (-30), 10⟩] 1 30 100).1
     (by norm_num [userTradesInWindow]; exact List.cons_ne_nil _ _)
     (by norm_num [userTradesInWindow, totalLossAbs, losingTrades])⟩

/-- C7: the value at risk is 0 on fewer than 10 observations, and on 10 or
more equals the linear-interpolated 5th percentile of the observations: with s
the ascending sort, h = 5 / 100 * (n - 1) and i its floor, the value
s[i] + (h - i) * (s[i + 1] - s[i]), the upper index always in range. -/
theorem var_percentile_spec (returns : List Rat) :
    (returns.length < 10 → _calculate_var returns = 0) ∧
    (10 ≤ returns.length →
      _calculate_var returns =
        (sortRats returns).getD (⌊(5 : Rat) / 100 * ((returns.length : Rat) - 1)⌋).toNat 0 +
          ((5 : Rat) / 100 * ((returns.length : Rat) - 1) -
            ((⌊(5 : Rat) / 100 * ((returns.length : Rat) - 1)⌋).toNat : Rat)) *
            ((sortRats returns).getD
                ((⌊(5 : Rat) / 100 * ((returns.length : Rat) - 1)⌋).toNat + 1) 0 -
              (sortRats returns).getD
                (⌊(5 : Rat) / 100 * ((returns.length : Rat) - 1)⌋).toNat 0)) := by
  constructor
  · intro h
    simp [_calculate_var, h]
  · intro h
    have hlen : (sortRats returns).length = returns.length :=
      List.length_insertionSort _ _
    have hnr : (10 : Rat) ≤ (returns.length : Rat) := by exact_mod_cast h
    have hq0 : 0 ≤ (5 : Rat) / 100 * ((returns.length : Rat) - 1) := by
      have h1 : (1 : Rat) ≤ (returns.length : Rat) := by linarith
      have := sub_nonneg.mpr h1
      positivity
    have hqlt : (5 : Rat) / 100 * ((returns.length : Rat) - 1) < (returns.length : Rat) - 1 := by
      nlinarith
    have hfl : (⌊(5 : Rat) / 100 * ((returns.length : Rat) - 1)⌋ : Rat) <
        (returns.length : Rat) - 1 :=
      lt_of_le_of_lt (Int.floor_le _) hqlt
    have hfl' : ⌊(5 : Rat) / 100 * ((returns.length : Rat) - 1)⌋ < (returns.length : Int) - 1 := by
      exact_mod_cast hfl
    have hfl0 : 0 ≤ ⌊(5 : Rat) / 100 * ((returns.length : Rat) - 1)⌋ :=
      Int.floor_nonneg.mpr hq0
    have hub : (⌊(5 : Rat) / 100 * ((returns.length : Rat) - 1)⌋).toNat + 1 <
        returns.length := by omega
    have hub' : (⌊(5 : Rat) / 100 * ((returns.length : Rat) - 1)⌋).toNat + 1 <
        (sortRats returns).length := by rw [hlen]; exact hub
    have h10 : ¬ (returns.length < 10) := not_lt.mpr h
    simp only [_calculate_var, if_neg h10, np_percentile, hlen]
    rw [List.getD_eq_getElem _ _ hub', List.getD_eq_getElem _ _ hub']

/-- Witness for C7 at ten concrete observations. -/
theorem var_percentile_spec_witness :
    10 ≤ ([10, 1, 2, 3, 4, 5, 6, 7, 8, 9] : List Rat).length ∧
    _calculate_var ([10, 1, 2, 3, 4, 5, 6, 7, 8, 9] : List Rat) =
      (sortRats [10, 1, 2, 3, 4, 5, 6, 7, 8, 9]).getD
          (⌊(5 : Rat) / 100 * ((([10, 1, 2, 3, 4, 5, 6, 7, 8, 9] : List Rat).length : Rat) - 1)⌋).toNat 0 +
        ((5 : Rat) / 100 * ((([10, 1, 2, 3, 4, 5, 6, 7, 8, 9] : List Rat).length : Rat) - 1) -
          ((⌊(5 : Rat) / 100 * ((([10, 1, 2, 3, 4, 5, 6, 7, 8, 9] : List Rat).length : Rat) - 1)⌋).toNat : Rat)) *
          ((sortRats [10, 1, 2, 3, 4, 5, 6, 7, 8, 9]).getD
              ((⌊(5 : Rat) / 100 * ((([10, 1, 2, 3, 4, 5, 6, 7, 8, 9] : List Rat).length : Rat) - 1)⌋).toNat + 1) 0 -
            (sortRats [10, 1, 2, 3, 4, 5, 6, 7, 8, 9]).getD
              (⌊(5 : Rat) / 100 * ((([10, 1, 2, 3, 4, 5, 6, 7, 8, 9] : List Rat).length : Rat) - 1)⌋).toNat 0) :=
  ⟨by decide, (var_percentile_spec [10, 1, 2, 3, 4, 5, 6, 7, 8, 9]).2 (by decide)⟩

/-- C6: the average trade duration is 0 on fewer than 2 trades and when the
matching scan over the trades in ascending timestamp order (buy records the
open timestamp of its symbol, overwriting; a sell with an open symbol emits
the elapsed hours and clears it) emits nothing; otherwise it is the mean of
the emitted durations; and two closed buy-sell round trips on one symbol are
measured independently, the second never reusing the first buy's timestamp. -/
theorem avg_trade_duration_spec :
    (∀ trades : List Trade, trades.length < 2 →
      _calculate_avg_trade_duration trades = 0) ∧
    (∀ trades : List Trade, durationScan [] (sortTrades trades) = [] →
      _calculate_avg_trade_duration trades = 0) ∧
    (∀ trades : List Trade, 2 ≤ trades.length →
      durationScan [] (sortTrades trades) ≠ [] →
      _calculate_avg_trade_duration trades = npMean (durationScan [] (sortTrades trades))) ∧
    (∀ (u : Nat) (s : String) (q1 q2 q3 q4 : Nat) (p1 p2 p3 p4 : Rat) (r1 r2 : Option Rat)
        (t0 t1 t2 t3 : Rat), t0 < t1 → t1 < t2 → t2 < t3 →
      _calculate_avg_trade_duration
        [⟨u, s, TradeAction.buy, q1, p1, none, t0⟩, ⟨u, s, TradeAction.sell, q2, p2, r1, t1⟩,
         ⟨u, s, TradeAction.buy, q3, p3, none, t2⟩, ⟨u, s, TradeAction.sell, q4, p4, r2, t3⟩] =
        ((t1 - t0) / 3600 + (t3 - t2) / 3600) / 2) := by
  refine ⟨?_, ?_, ?_, ?_⟩
  · intro trades h
    simp [_calculate_avg_trade_duration, h]
  · intro trades h
    simp [_calculate_avg_trade_duration, h]
  · intro trades h2 hne
    have h1 : ¬ trades.length < 2 := not_lt.mpr h2
    have h3 : (durationScan [] (sortTrades trades)).isEmpty = false := by
      simpa [List.isEmpty_iff] using hne
    simp [_calculate_avg_trade_duration, h1, h3]
  · intro u s q1 q2 q3 q4 p1 p2 p3 p4 r1 r2 t0 t1 t2 t3 h01 h12 h23
    have hsort : sortTrades
        [⟨u, s, TradeAction.buy, q1, p1, none, t0⟩, ⟨u, s, TradeAction.sell, q2, p2, r1, t1⟩,
         ⟨u, s, TradeAction.buy, q3, p3, none, t2⟩, ⟨u, s, TradeAction.sell, q4, p4, r2, t3⟩] =
        [⟨u, s, TradeAction.buy, q1, p1, none, t0⟩, ⟨u, s, TradeAction.sell, q2, p2, r1, t1⟩,
         ⟨u, s, TradeAction.buy, q3, p3, none, t2⟩, ⟨u, s, TradeAction.sell, q4, p4, r2, t3⟩] := by
      apply List.Sorted.insertionSort_eq
      simp only [List.sorted_cons, List.mem_cons, List.mem_singleton, List.not_mem_nil, tsLE]
      refine ⟨?_, ?_, ?_, ?_⟩
      · intro b hb
        rcases hb with h | h | h | h <;> first
          | (subst h; dsimp only; linarith)
          | exact absurd h (by simp)
      · intro b hb
        rcases hb with h | h | h <;> first
          | (subst h; dsimp only; linarith)
          | exact absurd h (by simp)
      · intro b hb
        rcases hb with h | h <;> first
          | (subst h; dsimp only; linarith)
          | exact absurd h (by simp)
      · simp [List.sorted_cons]
    rw [_calculate_avg_trade_duration, if_neg (by simp), hsort]
    simp only [durationScan, dictSet, dictGet, dictDel, if_pos rfl]
    norm_num [npMean]

/-- Witness for C6: no round trip on a single trade; one 2-hour and one
2-hour round trip average to the stated mean. -/
theorem avg_trade_duration_spec_witness :
    _calculate_avg_trade_duration [⟨1, "A", TradeAction.buy, 1, 10, none, 0⟩] = 0 ∧
    _calculate_avg_trade_duration
        [⟨1, "A", TradeAction.buy, 1, 10, none, 0⟩,
         ⟨1, "A", TradeAction.sell, 1, 11, some 1, 7200⟩,
         ⟨1, "A", TradeAction.buy, 1, 12, none, 10000⟩,
         ⟨1, "A", TradeAction.sell, 1, 13, some 1, 17200⟩] =
      (((7200 : Rat) - 0) / 3600 + ((17200 : Rat) - 10000) / 3600) / 2 :=
  ⟨avg_trade_duration_spec.1 [⟨1, "A", TradeAction.buy, 1, 10, none, 0⟩] (by decide),
   avg_trade_duration_spec.2.2.2 1 "A" 1 1 1 1 10 11 12 13 (some 1) (some 1)
     0 7200 10000 17200 (by norm_num) (by norm_num) (by norm_num)⟩

/-- Counterexample to C4 as stated: on one identical one-trade ledger, two
invocations one day apart return different metrics objects - the chart dates
are derived from the invocation clock, so the output is not a function of the
trade snapshot alone. -/
theorem metrics_time_dependence_cex :
    calculate_portfolio_metrics [⟨1, "A", TradeAction.buy, 1, 1, none, 3024000⟩] 1 30 3110400 ≠
      calculate_portfolio_metrics [⟨1, "A", TradeAction.buy, 1, 1, none, 3024000⟩] 1 30 3196800 := by
  have h1 : ((calculate_portfolio_metrics [⟨1, "A", TradeAction.buy, 1, 1, none, 3024000⟩]
      1 30 3110400).performance_chart_data.map ChartPoint.date) = [34, 35] := by
    norm_num [calculate_portfolio_metrics, userTradesInWindow, _prepare_chart_data,
      _calculate_portfolio_progression, sortTrades, tsLE, progressionFrom, dayOf,
      List.range_succ, max_def]
  have h2 : ((calculate_portfolio_metrics [⟨1, "A", TradeAction.buy, 1, 1, none, 3024000⟩]
      1 30 3196800).performance_chart_data.map ChartPoint.date) = [35, 36] := by
    norm_num [calculate_portfolio_metrics, userTradesInWindow, _prepare_chart_data,
      _calculate_portfolio_progression, sortTrades, tsLE, progressionFrom, dayOf,
      List.range_succ, max_def]
  intro h
  rw [h] at h1
  exact absurd (h1.symm.trans h2) (by decide)

/-- C4 amended: the engine is a deterministic pure projection of the pair
(ledger snapshot, invocation clock): two invocations on equal snapshots at
equal clock instants return identical metrics objects (the snapshot itself is
never mutated, which the pure functional embedding makes inherent). -/
theorem metrics_pure_projection_of_snapshot_and_clock
    (db1 db2 : List Trade) (user_id days : Nat) (now1 now2 : Rat)
    (hdb : db1 = db2) (hnow : now1 = now2) :
    calculate_portfolio_metrics db1 user_id days now1 =
      calculate_portfolio_metrics db2 user_id days now2 := by
  rw [hdb, hnow]

/-- Witness for C4 amended at a concrete snapshot and clock. -/
theorem metrics_pure_projection_witness :
    calculate_portfolio_metrics [⟨1, "A", TradeAction.buy, 1, 1, none, 0⟩] 1 30 0 =
      calculate_portfolio_metrics [⟨1, "A", TradeAction.buy, 1, 1, none, 0⟩] 1 30 0 :=
  metrics_pure_projection_of_snapshot_and_clock
    [⟨1, "A", TradeAction.buy, 1, 1, none, 0⟩] [⟨1, "A", TradeAction.buy, 1, 1, none, 0⟩]
    1 30 0 0 rfl rfl

end TradingBoat
